import Mathlib

/-!
Verification of the zmtechstockAIagent technical-analysis code.

The indicator pipeline of `App.py` / `main.py` and the analyzer of
`full_analysis.py` are embedded shallowly: a price table is a `List Bar`
of rational OHLCV values, pandas element-wise operations become list
operations, `ewm(span, adjust=False).mean()` becomes the documented
first-order recurrence, `rolling(w).mean()` becomes a windowed mean that
is `nan` until the window is full, and float `NaN`/`inf` values (which
arise only in the RSI column) are modelled by the type `FV`.
-/

namespace ZMTech

/-- One OHLCV row of the downloaded price table. -/
structure Bar where
  Open : ℚ
  High : ℚ
  Low : ℚ
  Close : ℚ
  Volume : ℚ
deriving DecidableEq, Repr

instance : Inhabited Bar := ⟨⟨0, 0, 0, 0, 0⟩⟩

/-- First-order scan: each output is `f` of the previous output and the
current input; `p` is the value preceding the list.  Both the
`adjust=False` EWM recurrence and the Heikin-Ashi open loop have this
shape. -/
def scanRec (f : ℚ → ℚ → ℚ) (p : ℚ) : List ℚ → List ℚ
  | [] => []
  | c :: cs => f p c :: scanRec f (f p c) cs

/-- `Series.ewm(span, adjust=False).mean()` with smoothing factor `a`:
the first output is the first input, then
`y[t] = a * x[t] + (1 - a) * y[t-1]`. -/
def ewm_mean (a : ℚ) : List ℚ → List ℚ
  | [] => []
  | c :: cs => c :: scanRec (fun prev x => a * x + (1 - a) * prev) c cs

/-- `calculate_ema` (App.py line 210, main.py line 470):
`data['Close'].ewm(span=period, adjust=False).mean()`, whose smoothing
factor is `2 / (period + 1)`. -/
def calculate_ema (close : List ℚ) (period : ℕ) : List ℚ :=
  ewm_mean (2 / ((period : ℚ) + 1)) close

theorem scanRec_length (f : ℚ → ℚ → ℚ) (p : ℚ) (l : List ℚ) :
    (scanRec f p l).length = l.length := by
  induction l generalizing p with
  | nil => rfl
  | cons c cs ih => simp [scanRec, ih]

theorem scanRec_cons_getD (f : ℚ → ℚ → ℚ) (p : ℚ) (l : List ℚ) (t : ℕ)
    (ht : t < l.length) :
    (p :: scanRec f p l).getD (t + 1) 0 =
      f ((p :: scanRec f p l).getD t 0) (l.getD t 0) := by
  induction l generalizing p t with
  | nil => simp at ht
  | cons c cs ih =>
    cases t with
    | zero => simp [scanRec]
    | succ s =>
      have hs : s < cs.length := by
        simpa using Nat.lt_of_succ_lt_succ ht
      simpa [scanRec] using ih (f p c) s hs

/-- Claim C2: `calculate_ema` returns a series of the same length whose
first value is the first close (seed invariant) and which satisfies
`EMA[t] = a * Close[t] + (1 - a) * EMA[t-1]` with `a = 2/(period+1)` for
every later index. -/
theorem ema_recurrence (close : List ℚ) (period : ℕ) (hne : close ≠ []) :
    (calculate_ema close period).length = close.length ∧
    (calculate_ema close period).getD 0 0 = close.getD 0 0 ∧
    ∀ t, t + 1 < close.length →
      (calculate_ema close period).getD (t + 1) 0 =
        (2 / ((period : ℚ) + 1)) * close.getD (t + 1) 0 +
          (1 - 2 / ((period : ℚ) + 1)) * (calculate_ema close period).getD t 0 := by
  match close with
  | [] => exact absurd rfl hne
  | c :: cs =>
    refine ⟨?_, rfl, ?_⟩
    · simp [calculate_ema, ewm_mean, scanRec_length]
    · intro t ht
      have ht' : t < cs.length := by simpa using Nat.lt_of_succ_lt_succ ht
      have h := scanRec_cons_getD
        (fun prev x => (2 / ((period : ℚ) + 1)) * x + (1 - 2 / ((period : ℚ) + 1)) * prev)
        c cs t ht'
      simpa [calculate_ema, ewm_mean] using h

theorem ema_recurrence_witness :
    ([4, 10] : List ℚ) ≠ [] ∧ 0 + 1 < ([4, 10] : List ℚ).length ∧
    (calculate_ema [4, 10] 9).getD (0 + 1) 0 =
      (2 / ((9 : ℚ) + 1)) * ([4, 10] : List ℚ).getD (0 + 1) 0 +
        (1 - 2 / ((9 : ℚ) + 1)) * (calculate_ema [4, 10] 9).getD 0 0 :=
  ⟨by decide, by decide,
    (ema_recurrence [4, 10] 9 (by decide)).2.2 0 (by decide)⟩

theorem getD_map_lt {α β : Type} (f : α → β) (l : List α) (t : ℕ)
    (d : β) (da : α) (ht : t < l.length) :
    (l.map f).getD t d = f (l.getD t da) := by
  induction l generalizing t with
  | nil => simp at ht
  | cons a l ih =>
    cases t with
    | zero => simp
    | succ s => simpa using ih s (by simpa using Nat.lt_of_succ_lt_succ ht)

theorem getD_dropLast {α : Type} (l : List α) (t : ℕ) (d : α)
    (ht : t + 1 < l.length) :
    l.dropLast.getD t d = l.getD t d := by
  induction l generalizing t with
  | nil => simp at ht
  | cons a l ih =>
    match l, ht with
    | b :: l', ht =>
      cases t with
      | zero => simp [List.dropLast]
      | succ s =>
        have hs : s + 1 < (b :: l').length := by
          simpa using Nat.lt_of_succ_lt_succ ht
        simpa [List.dropLast] using ih s hs

theorem getD_zipWith (f : ℚ → ℚ → ℚ) (l1 l2 : List ℚ) (t : ℕ)
    (h1 : t < l1.length) (h2 : t < l2.length) :
    (List.zipWith f l1 l2).getD t 0 = f (l1.getD t 0) (l2.getD t 0) := by
  induction l1 generalizing l2 t with
  | nil => simp at h1
  | cons a l1 ih =>
    match l2, h2 with
    | b :: l2, h2 =>
      cases t with
      | zero => simp
      | succ s =>
        have hs1 : s < l1.length := by simpa using Nat.lt_of_succ_lt_succ h1
        have hs2 : s < l2.length := by simpa using Nat.lt_of_succ_lt_succ h2
        simpa using ih l2 s hs1 hs2

/-- The Heikin-Ashi output frame: the four columns of the DataFrame
built by `calculate_heikin_ashi`. -/
structure HAFrame where
  HA_Open : List ℚ
  HA_High : List ℚ
  HA_Low : List ℚ
  HA_Close : List ℚ
deriving DecidableEq, Repr

/-- `ha_close = (Open + High + Low + Close) / 4` per bar. -/
def haCloseList (df : List Bar) : List ℚ :=
  df.map (fun b => (b.Open + b.High + b.Low + b.Close) / 4)

/-- `calculate_heikin_ashi` (App.py line 252, main.py line 509):
`ha_open` starts at `(Open[0] + Close[0]) / 2` and the loop appends
`(ha_open[i-1] + ha_close[i-1]) / 2` for `i = 1 .. n-1` (so it consumes
`ha_close` without its last element); `ha_high` and `ha_low` are the
row-wise max / min of High / Low, `ha_open` and `ha_close`.  An empty
frame makes `iloc[0]` fail, hence `none`. -/
def calculate_heikin_ashi (df : List Bar) : Option HAFrame :=
  match df with
  | [] => none
  | b :: rest =>
    let hc := haCloseList (b :: rest)
    let o0 := (b.Open + b.Close) / 2
    let ho := o0 :: scanRec (fun prev c => (prev + c) / 2) o0 hc.dropLast
    some { HA_Open := ho
           HA_High := List.zipWith max ((b :: rest).map Bar.High)
             (List.zipWith max ho hc)
           HA_Low := List.zipWith min ((b :: rest).map Bar.Low)
             (List.zipWith min ho hc)
           HA_Close := hc }

/-- Claim C1: on a non-empty series `calculate_heikin_ashi` succeeds, all
four output columns have the input's length, `HA_Close[t]` is the OHLC
average, `HA_Open` satisfies the stated recursion, and `HA_High` /
`HA_Low` are the max / min of the bar's High / Low with `HA_Open` and
`HA_Close`. -/
theorem heikin_ashi_spec (df : List Bar) (hne : df ≠ []) :
    ∃ ha, calculate_heikin_ashi df = some ha ∧
      ha.HA_Open.length = df.length ∧
      ha.HA_High.length = df.length ∧
      ha.HA_Low.length = df.length ∧
      ha.HA_Close.length = df.length ∧
      (∀ t, t < df.length →
        ha.HA_Close.getD t 0 =
          ((df.getD t default).Open + (df.getD t default).High +
            (df.getD t default).Low + (df.getD t default).Close) / 4) ∧
      ha.HA_Open.getD 0 0 = ((df.getD 0 default).Open + (df.getD 0 default).Close) / 2 ∧
      (∀ t, t + 1 < df.length →
        ha.HA_Open.getD (t + 1) 0 =
          (ha.HA_Open.getD t 0 + ha.HA_Close.getD t 0) / 2) ∧
      (∀ t, t < df.length →
        ha.HA_High.getD t 0 =
          max (df.getD t default).High (max (ha.HA_Open.getD t 0) (ha.HA_Close.getD t 0))) ∧
      (∀ t, t < df.length →
        ha.HA_Low.getD t 0 =
          min (df.getD t default).Low (min (ha.HA_Open.getD t 0) (ha.HA_Close.getD t 0))) := by
  match df with
  | [] => exact absurd rfl hne
  | b :: rest =>
    set hc := haCloseList (b :: rest) with hhc
    set o0 := (b.Open + b.Close) / 2 with ho0
    set ho := o0 :: scanRec (fun prev c => (prev + c) / 2) o0 hc.dropLast with hho
    have hclen : hc.length = (b :: rest).length := by
      simp [hhc, haCloseList]
    have holen : ho.length = (b :: rest).length := by
      simp [hho, scanRec_length, hhc, haCloseList]
    refine ⟨_, rfl, ?_, ?_, ?_, ?_, ?_, ?_, ?_, ?_, ?_⟩
    · exact holen
    · simp only [List.length_zipWith, holen, hclen, getD_map_lt]
      simp
    · simp only [List.length_zipWith, holen, hclen]
      simp
    · exact hclen
    · intro t ht
      simpa [hhc, haCloseList] using
        getD_map_lt (fun x : Bar => (x.Open + x.High + x.Low + x.Close) / 4)
          (b :: rest) t 0 default ht
    · simp [hho, ho0]
    · intro t ht
      have htl : t < hc.dropLast.length := by
        simp only [List.length_dropLast, hclen]
        omega
      have h := scanRec_cons_getD (fun prev c => (prev + c) / 2) o0 hc.dropLast t htl
      rw [← hho] at h
      rw [h, getD_dropLast hc t 0 (by omega)]
    · intro t ht
      have h1 : t < ((b :: rest).map Bar.High).length := by simpa using ht
      have h2 : t < (List.zipWith max ho hc).length := by
        rw [List.length_zipWith, holen, hclen, min_self]; exact ht
      rw [getD_zipWith max _ _ t h1 h2,
          getD_zipWith max ho hc t (by rw [holen]; exact ht) (by rw [hclen]; exact ht),
          getD_map_lt Bar.High (b :: rest) t 0 default ht]
    · intro t ht
      have h1 : t < ((b :: rest).map Bar.Low).length := by simpa using ht
      have h2 : t < (List.zipWith min ho hc).length := by
        rw [List.length_zipWith, holen, hclen, min_self]; exact ht
      rw [getD_zipWith min _ _ t h1 h2,
          getD_zipWith min ho hc t (by rw [holen]; exact ht) (by rw [hclen]; exact ht),
          getD_map_lt Bar.Low (b :: rest) t 0 default ht]

theorem heikin_ashi_spec_witness :
    ([⟨2, 5, 1, 4, 10⟩, ⟨4, 6, 3, 5, 10⟩] : List Bar) ≠ [] ∧
    ∃ ha, calculate_heikin_ashi [⟨2, 5, 1, 4, 10⟩, ⟨4, 6, 3, 5, 10⟩] = some ha ∧
      ha.HA_Open.length = 2 ∧ ha.HA_Close.getD 0 0 = 3 :=
  ⟨by decide, by
    obtain ⟨ha, heq, hlen, -, -, -, hcl, -, -, -, -⟩ :=
      heikin_ashi_spec [⟨2, 5, 1, 4, 10⟩, ⟨4, 6, 3, 5, 10⟩] (by decide)
    exact ⟨ha, heq, hlen, by rw [hcl 0 (by decide)]; norm_num⟩⟩

/-- `Series.shift(1)`: `NaN` (here `none`) at index 0, then the previous
element. -/
def shift1 (l : List ℚ) : List (Option ℚ) :=
  match l with
  | [] => []
  | _ :: _ => none :: l.dropLast.map some

/-- A pandas comparison against a shifted series: any comparison with
`NaN` is `False`. -/
def optLe (a b : Option ℚ) : Bool :=
  match a, b with
  | some x, some y => decide (x ≤ y)
  | _, _ => false

def optGe (a b : Option ℚ) : Bool :=
  match a, b with
  | some x, some y => decide (y ≤ x)
  | _, _ => false

/-- `generate_signals` (App.py line 236, full_analysis.py line 40):
`Buy = (MACD > Signal) & (MACD.shift(1) <= Signal.shift(1)) & (RSI < 70)`
and `Sell = (MACD < Signal) & (MACD.shift(1) >= Signal.shift(1)) &
(RSI > 30)`, evaluated element-wise over the aligned index. -/
def generate_signals (macd sig rsi : List ℚ) : List Bool × List Bool :=
  let pm := shift1 macd
  let ps := shift1 sig
  let buy := (List.range macd.length).map (fun t =>
    decide (sig.getD t 0 < macd.getD t 0) &&
      optLe (pm.getD t none) (ps.getD t none) &&
      decide (rsi.getD t 0 < 70))
  let sell := (List.range macd.length).map (fun t =>
    decide (macd.getD t 0 < sig.getD t 0) &&
      optGe (pm.getD t none) (ps.getD t none) &&
      decide (30 < rsi.getD t 0))
  (buy, sell)

theorem getD_range_map {β : Type} (f : ℕ → β) (n t : ℕ) (d : β) (ht : t < n) :
    ((List.range n).map f).getD t d = f t := by
  rw [getD_map_lt f (List.range n) t d 0 (by simpa using ht)]
  congr 1
  rw [List.getD_eq_getElem _ _ (by simpa using ht)]
  simp [ht]

theorem shift1_getD_succ (l : List ℚ) (t : ℕ) (ht : t + 1 < l.length) :
    (shift1 l).getD (t + 1) none = some (l.getD t 0) := by
  match l, ht with
  | c :: cs, ht =>
    show ((c :: cs).dropLast.map some).getD t none = some ((c :: cs).getD t 0)
    rw [getD_map_lt some _ t none 0
        (by simp only [List.length_dropLast]; simpa using Nat.lt_of_succ_lt_succ ht)]
    rw [getD_dropLast _ t 0 ht]

theorem shift1_getD_zero (l : List ℚ) (hne : l ≠ []) :
    (shift1 l).getD 0 none = none := by
  match l with
  | c :: cs => rfl

/-- Claim C3: for equal-length MACD, Signal and RSI series the generated
Buy and Sell series have the same length; `Buy[0] = Sell[0] = false`; and
for `t > 0`, `Buy[t]` holds iff `MACD[t] > Signal[t]`,
`MACD[t-1] ≤ Signal[t-1]` and `RSI[t] < 70`, while `Sell[t]` holds iff
`MACD[t] < Signal[t]`, `MACD[t-1] ≥ Signal[t-1]` and `RSI[t] > 30`. -/
theorem generate_signals_spec (macd sig rsi : List ℚ)
    (hs : sig.length = macd.length) (hr : rsi.length = macd.length)
    (hne : macd ≠ []) :
    (generate_signals macd sig rsi).1.length = macd.length ∧
    (generate_signals macd sig rsi).2.length = macd.length ∧
    (generate_signals macd sig rsi).1.getD 0 false = false ∧
    (generate_signals macd sig rsi).2.getD 0 false = false ∧
    (∀ t, t + 1 < macd.length →
      ((generate_signals macd sig rsi).1.getD (t + 1) false = true ↔
        (sig.getD (t + 1) 0 < macd.getD (t + 1) 0 ∧
          macd.getD t 0 ≤ sig.getD t 0 ∧ rsi.getD (t + 1) 0 < 70)) ∧
      ((generate_signals macd sig rsi).2.getD (t + 1) false = true ↔
        (macd.getD (t + 1) 0 < sig.getD (t + 1) 0 ∧
          sig.getD t 0 ≤ macd.getD t 0 ∧ 30 < rsi.getD (t + 1) 0))) := by
  have hlen0 : 0 < macd.length := List.length_pos.mpr hne
  refine ⟨by simp [generate_signals], by simp [generate_signals], ?_, ?_, ?_⟩
  · show (((List.range macd.length).map _).getD 0 false) = false
    rw [getD_range_map _ _ 0 false hlen0, shift1_getD_zero macd hne]
    simp [optLe]
  · show (((List.range macd.length).map _).getD 0 false) = false
    rw [getD_range_map _ _ 0 false hlen0, shift1_getD_zero macd hne]
    simp [optGe]
  · intro t ht
    constructor
    · show (((List.range macd.length).map _).getD (t + 1) false = true) ↔ _
      rw [getD_range_map _ _ (t + 1) false ht,
          shift1_getD_succ macd t ht, shift1_getD_succ sig t (by omega)]
      simp [optLe, and_assoc]
    · show (((List.range macd.length).map _).getD (t + 1) false = true) ↔ _
      rw [getD_range_map _ _ (t + 1) false ht,
          shift1_getD_succ macd t ht, shift1_getD_succ sig t (by omega)]
      simp [optGe, and_assoc]

theorem generate_signals_spec_witness :
    (([2, 3] : List ℚ).length = ([1, 2] : List ℚ).length ∧
      ([50, 50] : List ℚ).length = ([1, 2] : List ℚ).length ∧
      ([1, 2] : List ℚ) ≠ [] ∧ 0 + 1 < ([1, 2] : List ℚ).length) ∧
    ((generate_signals [1, 2] [2, 3] [50, 50]).1.getD (0 + 1) false = true ↔
      (([2, 3] : List ℚ).getD (0 + 1) 0 < ([1, 2] : List ℚ).getD (0 + 1) 0 ∧
        ([1, 2] : List ℚ).getD 0 0 ≤ ([2, 3] : List ℚ).getD 0 0 ∧
        ([50, 50] : List ℚ).getD (0 + 1) 0 < 70)) :=
  ⟨⟨by decide, by decide, by decide, by decide⟩,
    ((generate_signals_spec [1, 2] [2, 3] [50, 50] (by decide) (by decide)
      (by decide)).2.2.2.2 0 (by decide)).1⟩

/-- Claim C4: Buy and Sell are mutually exclusive at every index: the
Buy condition needs `MACD[t] > Signal[t]` and the Sell condition needs
`MACD[t] < Signal[t]`, which cannot hold together (and out-of-range
indices yield `false`). -/
theorem signals_mutually_exclusive (macd sig rsi : List ℚ) (t : ℕ) :
    ((generate_signals macd sig rsi).1.getD t false &&
      (generate_signals macd sig rsi).2.getD t false) = false := by
  by_cases ht : t < macd.length
  · show ((((List.range macd.length).map _).getD t false) &&
      (((List.range macd.length).map _).getD t false)) = false
    rw [getD_range_map _ _ t false ht, getD_range_map _ _ t false ht]
    show ((decide (sig.getD t 0 < macd.getD t 0) &&
        optLe ((shift1 macd).getD t none) ((shift1 sig).getD t none) &&
        decide (rsi.getD t 0 < 70)) &&
      (decide (macd.getD t 0 < sig.getD t 0) &&
        optGe ((shift1 macd).getD t none) ((shift1 sig).getD t none) &&
        decide (30 < rsi.getD t 0))) = false
    rcases le_or_lt (macd.getD t 0) (sig.getD t 0) with h | h
    · rw [decide_eq_false (not_lt.mpr h)]
      simp
    · rw [decide_eq_false (not_lt.mpr (le_of_lt h))]
      simp
  · have hb : (generate_signals macd sig rsi).1.getD t false = false := by
      apply List.getD_eq_default
      simpa [generate_signals] using not_lt.mp ht
    rw [hb]
    simp

/-- IEEE-754 style value as pandas produces it in the RSI column:
`nan`, the two infinities, or a finite (here rational) number. -/
inductive FV where
  | nan : FV
  | inf : FV
  | ninf : FV
  | fin : ℚ → FV
deriving DecidableEq, Repr

namespace FV

def add : FV → FV → FV
  | nan, _ => nan
  | _, nan => nan
  | inf, ninf => nan
  | ninf, inf => nan
  | inf, _ => inf
  | _, inf => inf
  | ninf, _ => ninf
  | _, ninf => ninf
  | fin a, fin b => fin (a + b)

def neg : FV → FV
  | nan => nan
  | inf => ninf
  | ninf => inf
  | fin a => fin (-a)

def sub (a b : FV) : FV := add a (neg b)

/-- Float division including the pandas/NumPy zero-division behavior:
`x / 0` is `±inf` for `x ≠ 0` and `nan` for `x = 0`. -/
def div : FV → FV → FV
  | nan, _ => nan
  | _, nan => nan
  | inf, inf => nan
  | inf, ninf => nan
  | ninf, inf => nan
  | ninf, ninf => nan
  | inf, fin b => if b < 0 then ninf else inf
  | ninf, fin b => if b < 0 then inf else ninf
  | fin _, inf => fin 0
  | fin _, ninf => fin 0
  | fin a, fin b =>
    if b = 0 then (if 0 < a then inf else if a < 0 then ninf else nan)
    else fin (a / b)

/-- `x > 0` as a float comparison (`nan > 0` is `False`). -/
def IsPos : FV → Prop
  | fin q => 0 < q
  | inf => True
  | _ => False

/-- `x < 0` as a float comparison (`nan < 0` is `False`). -/
def IsNeg : FV → Prop
  | fin q => q < 0
  | ninf => True
  | _ => False

instance (v : FV) : Decidable v.IsPos :=
  match v with
  | .fin q => inferInstanceAs (Decidable (0 < q))
  | .inf => .isTrue trivial
  | .nan => .isFalse id
  | .ninf => .isFalse id

instance (v : FV) : Decidable v.IsNeg :=
  match v with
  | .fin q => inferInstanceAs (Decidable (q < 0))
  | .ninf => .isTrue trivial
  | .nan => .isFalse id
  | .inf => .isFalse id

end FV

/-- `Series.diff()`: `NaN` at index 0, `Close[t] - Close[t-1]` after. -/
def diffFV (close : List ℚ) : List FV :=
  match close with
  | [] => []
  | _ :: _ => FV.nan :: List.zipWith (fun a b => FV.fin (a - b)) close.tail close

/-- `delta.where(delta > 0, 0)`: keep the positive deltas, everything
else (including the leading `NaN`) becomes 0. -/
def gainList (delta : List FV) : List FV :=
  delta.map (fun d => if d.IsPos then d else FV.fin 0)

/-- `-delta.where(delta < 0, 0)`: the negated negative deltas. -/
def lossList (delta : List FV) : List FV :=
  delta.map (fun d => FV.neg (if d.IsNeg then d else FV.fin 0))

def sumFV (l : List FV) : FV := l.foldl FV.add (FV.fin 0)

/-- `Series.rolling(window=w).mean()`: `NaN` until the window is full,
then the window sum divided by `w` (a window containing `NaN` propagates
it through the sum). -/
def rollingMean (w : ℕ) (l : List FV) : List FV :=
  (List.range l.length).map (fun t =>
    if t + 1 < w then FV.nan
    else FV.div (sumFV ((l.take (t + 1)).drop (t + 1 - w))) (FV.fin w))

/-- The 14-bar simple rolling mean of gains used by `calculate_rsi`. -/
def rsiAvgGain (close : List ℚ) (periods : ℕ) : List FV :=
  rollingMean periods (gainList (diffFV close))

/-- The 14-bar simple rolling mean of losses used by `calculate_rsi`. -/
def rsiAvgLoss (close : List ℚ) (periods : ℕ) : List FV :=
  rollingMean periods (lossList (diffFV close))

/-- `calculate_rsi` (App.py line 229, main.py line 488):
`rs = gain / loss; rsi = 100 - 100 / (1 + rs)` element-wise, with `gain`
and `loss` the plain rolling means above (not Wilder's smoothing). -/
def calculate_rsi (close : List ℚ) (periods : ℕ) : List FV :=
  let rs := List.zipWith FV.div (rsiAvgGain close periods) (rsiAvgLoss close periods)
  rs.map (fun r => FV.sub (FV.fin 100) (FV.div (FV.fin 100) (FV.add (FV.fin 1) r)))

theorem getD_zipWithFV (f : FV → FV → FV) (l1 l2 : List FV) (t : ℕ)
    (h1 : t < l1.length) (h2 : t < l2.length) :
    (List.zipWith f l1 l2).getD t FV.nan = f (l1.getD t FV.nan) (l2.getD t FV.nan) := by
  induction l1 generalizing l2 t with
  | nil => simp at h1
  | cons a l1 ih =>
    match l2, h2 with
    | b :: l2, h2 =>
      cases t with
      | zero => simp
      | succ s =>
        have hs1 : s < l1.length := by simpa using Nat.lt_of_succ_lt_succ h1
        have hs2 : s < l2.length := by simpa using Nat.lt_of_succ_lt_succ h2
        simpa using ih l2 s hs1 hs2

theorem rollingMean_length (w : ℕ) (l : List FV) :
    (rollingMean w l).length = l.length := by
  simp [rollingMean]

theorem rsi_length_aux (close : List ℚ) (periods : ℕ) :
    (rsiAvgGain close periods).length = close.length ∧
    (rsiAvgLoss close periods).length = close.length := by
  have hd : (diffFV close).length = close.length := by
    match close with
    | [] => rfl
    | c :: cs => simp [diffFV]
  constructor
  · simp [rsiAvgGain, rollingMean_length, gainList, hd]
  · simp [rsiAvgLoss, rollingMean_length, lossList, hd]

/-- Claim C5: `calculate_rsi` is total (every input yields a defined
series of the input's length); whenever the rolling loss mean is zero
and the rolling gain mean is positive, the RSI value is exactly 100
(`RS = +inf`, `100 - 100/(1+inf) = 100`); whenever both rolling means
are zero (constant prices), the RSI value is the `nan` sentinel
(`0/0 = nan`). -/
theorem rsi_edge_cases (close : List ℚ) (periods : ℕ) (t : ℕ) :
    (calculate_rsi close periods).length = close.length ∧
    (∀ g : ℚ, (rsiAvgLoss close periods).getD t FV.nan = FV.fin 0 →
      (rsiAvgGain close periods).getD t FV.nan = FV.fin g → 0 < g →
      (calculate_rsi close periods).getD t FV.nan = FV.fin 100) ∧
    ((rsiAvgLoss close periods).getD t FV.nan = FV.fin 0 →
      (rsiAvgGain close periods).getD t FV.nan = FV.fin 0 →
      (calculate_rsi close periods).getD t FV.nan = FV.nan) := by
  obtain ⟨hg, hl⟩ := rsi_length_aux close periods
  have hrslen : (List.zipWith FV.div (rsiAvgGain close periods)
      (rsiAvgLoss close periods)).length = close.length := by
    simp [List.length_zipWith, hg, hl]
  refine ⟨?_, ?_, ?_⟩
  · simp [calculate_rsi, hrslen]
  · intro g hloss hgain hgpos
    have ht : t < close.length := by
      by_contra hge
      rw [List.getD_eq_default _ _ (by rw [hl]; omega)] at hloss
      exact FV.noConfusion hloss
    have hrs : (List.zipWith FV.div (rsiAvgGain close periods)
        (rsiAvgLoss close periods)).getD t FV.nan = FV.inf := by
      rw [getD_zipWithFV FV.div _ _ t (by rw [hg]; exact ht) (by rw [hl]; exact ht),
          hgain, hloss]
      simp [FV.div, hgpos, not_lt.mpr (le_of_lt hgpos)]
    show (List.map _ _).getD t FV.nan = FV.fin 100
    rw [getD_map_lt _ _ t FV.nan FV.nan (by rw [hrslen]; exact ht), hrs]
    simp [FV.sub, FV.add, FV.div, FV.neg]
  · intro hloss hgain
    have ht : t < close.length := by
      by_contra hge
      rw [List.getD_eq_default _ _ (by rw [hl]; omega)] at hloss
      exact FV.noConfusion hloss
    have hrs : (List.zipWith FV.div (rsiAvgGain close periods)
        (rsiAvgLoss close periods)).getD t FV.nan = FV.nan := by
      rw [getD_zipWithFV FV.div _ _ t (by rw [hg]; exact ht) (by rw [hl]; exact ht),
          hgain, hloss]
      simp [FV.div]
    show (List.map _ _).getD t FV.nan = FV.nan
    rw [getD_map_lt _ _ t FV.nan FV.nan (by rw [hrslen]; exact ht), hrs]
    simp [FV.sub, FV.add, FV.div, FV.neg]

theorem rsi_edge_cases_witness :
    ((rsiAvgLoss [1, 2, 3, 4, 5, 6, 7, 8, 9, 10, 11, 12, 13, 14, 15] 14).getD 14 FV.nan =
        FV.fin 0 ∧
      (rsiAvgGain [1, 2, 3, 4, 5, 6, 7, 8, 9, 10, 11, 12, 13, 14, 15] 14).getD 14 FV.nan =
        FV.fin 1 ∧ (0 : ℚ) < 1 ∧
      (calculate_rsi [1, 2, 3, 4, 5, 6, 7, 8, 9, 10, 11, 12, 13, 14, 15] 14).getD 14 FV.nan =
        FV.fin 100) ∧
    ((rsiAvgLoss [5, 5, 5, 5, 5, 5, 5, 5, 5, 5, 5, 5, 5, 5] 14).getD 13 FV.nan = FV.fin 0 ∧
      (rsiAvgGain [5, 5, 5, 5, 5, 5, 5, 5, 5, 5, 5, 5, 5, 5] 14).getD 13 FV.nan = FV.fin 0 ∧
      (calculate_rsi [5, 5, 5, 5, 5, 5, 5, 5, 5, 5, 5, 5, 5, 5] 14).getD 13 FV.nan = FV.nan) := by
  have hloss1 : (rsiAvgLoss [1, 2, 3, 4, 5, 6, 7, 8, 9, 10, 11, 12, 13, 14, 15] 14).getD 14
      FV.nan = FV.fin 0 := by
    norm_num [rsiAvgLoss, rollingMean, diffFV, lossList, sumFV, FV.add, FV.neg, FV.div,
      FV.IsNeg, List.range_succ]
  have hgain1 : (rsiAvgGain [1, 2, 3, 4, 5, 6, 7, 8, 9, 10, 11, 12, 13, 14, 15] 14).getD 14
      FV.nan = FV.fin 1 := by
    norm_num [rsiAvgGain, rollingMean, diffFV, gainList, sumFV, FV.add, FV.div,
      FV.IsPos, List.range_succ]
  have hloss2 : (rsiAvgLoss [5, 5, 5, 5, 5, 5, 5, 5, 5, 5, 5, 5, 5, 5] 14).getD 13
      FV.nan = FV.fin 0 := by
    norm_num [rsiAvgLoss, rollingMean, diffFV, lossList, sumFV, FV.add, FV.neg, FV.div,
      FV.IsNeg, List.range_succ]
  have hgain2 : (rsiAvgGain [5, 5, 5, 5, 5, 5, 5, 5, 5, 5, 5, 5, 5, 5] 14).getD 13
      FV.nan = FV.fin 0 := by
    norm_num [rsiAvgGain, rollingMean, diffFV, gainList, sumFV, FV.add, FV.div,
      FV.IsPos, List.range_succ]
  exact ⟨⟨hloss1, hgain1, by norm_num,
    (rsi_edge_cases [1, 2, 3, 4, 5, 6, 7, 8, 9, 10, 11, 12, 13, 14, 15] 14 14).2.1 1
      hloss1 hgain1 (by norm_num)⟩,
    ⟨hloss2, hgain2,
      (rsi_edge_cases [5, 5, 5, 5, 5, 5, 5, 5, 5, 5, 5, 5, 5, 5] 14 13).2.2 hloss2 hgain2⟩⟩

/-- `calculate_macd` (App.py line 222, main.py line 481):
`exp1 = Close.ewm(span=12, adjust=False).mean()`, `exp2` with span 26,
`macd = exp1 - exp2`, `signal = macd.ewm(span=9, adjust=False).mean()`.
With `adjust=False` every output value is defined (non-NaN) from the
first bar on, so the series are plain rational lists. -/
def calculate_macd (close : List ℚ) : List ℚ × List ℚ :=
  let exp1 := ewm_mean (2 / (12 + 1)) close
  let exp2 := ewm_mean (2 / (26 + 1)) close
  let macd := List.zipWith (fun a b => a - b) exp1 exp2
  let signal := ewm_mean (2 / (9 + 1)) macd
  (macd, signal)

/-- The failure modes of the download/validation step of `load_data`:
an empty frame, or fewer than the 26 bars MACD needs. -/
inductive DataError where
  | noData : DataError
  | insufficientBars : DataError
deriving DecidableEq, Repr

/-- The indicator columns attached to the frame by `load_data`. -/
structure Frame where
  bars : List Bar
  MACD : List ℚ
  Signal : List ℚ
  RSI : List FV
deriving Repr

/-- `load_data` (App.py lines 437-445) and the equivalent guard in
`main` (main.py lines 748-750): an empty frame or one with fewer than
26 rows is rejected before any indicator is computed (the app surfaces
this as an error message and aborts the analysis, modelled as
`DataError`); otherwise MACD, Signal and RSI are computed on the close
column. -/
def load_data (df : List Bar) : Except DataError Frame :=
  if df.length = 0 then .error .noData
  else if df.length < 26 then .error .insufficientBars
  else
    let close := df.map Bar.Close
    let ms := calculate_macd close
    .ok { bars := df, MACD := ms.1, Signal := ms.2, RSI := calculate_rsi close 14 }

theorem ewm_mean_length (a : ℚ) (l : List ℚ) : (ewm_mean a l).length = l.length := by
  match l with
  | [] => rfl
  | c :: cs => simp [ewm_mean, scanRec_length]

/-- Claim C7: every input frame with fewer than 26 bars is rejected with
a `DataError` before indicators are computed, and on a frame of exactly
26 bars the pipeline succeeds with MACD and Signal series that carry a
defined (non-NaN) rational value at every bar, the last one included. -/
theorem load_data_spec (df : List Bar) :
    (df.length < 26 → ∃ e, load_data df = .error e) ∧
    (df.length = 26 → ∃ fr, load_data df = .ok fr ∧
      fr.MACD.length = 26 ∧ fr.Signal.length = 26) := by
  constructor
  · intro hlt
    by_cases h0 : df.length = 0
    · exact ⟨.noData, by simp [load_data, h0]⟩
    · exact ⟨.insufficientBars, by simp [load_data, h0, hlt]⟩
  · intro h26
    refine ⟨⟨df, (calculate_macd (df.map Bar.Close)).1, (calculate_macd (df.map Bar.Close)).2,
      calculate_rsi (df.map Bar.Close) 14⟩, by simp [load_data, h26], ?_, ?_⟩
    · simp [calculate_macd, List.length_zipWith, ewm_mean_length, h26]
    · simp [calculate_macd, List.length_zipWith, ewm_mean_length, h26]

theorem load_data_spec_witness :
    (List.replicate 25 (default : Bar)).length < 26 ∧
    (List.replicate 26 (default : Bar)).length = 26 ∧
    (∃ e, load_data (List.replicate 25 (default : Bar)) = .error e) ∧
    (∃ fr, load_data (List.replicate 26 (default : Bar)) = .ok fr ∧
      fr.MACD.length = 26 ∧ fr.Signal.length = 26) :=
  ⟨by simp, by simp,
    (load_data_spec (List.replicate 25 (default : Bar))).1 (by simp),
    (load_data_spec (List.replicate 26 (default : Bar))).2 (by simp)⟩

/-- The pivot levels returned by `_calculate_support_resistance`. -/
structure Levels where
  resistance_1 : ℚ
  resistance_2 : ℚ
  resistance_3 : ℚ
  support_1 : ℚ
  support_2 : ℚ
  support_3 : ℚ
  pivot : ℚ
deriving DecidableEq, Repr

/-- `FullStockAnalyzer._calculate_support_resistance`
(full_analysis.py lines 209-238): `recent = data.tail(60)` (the last
`min(60, n)` rows — no length check and no error for short input);
`high = recent['High'].max()`, `low = recent['Low'].min()`,
`close = data['Close'].iloc[-1]`; classic pivot-point formulas.  On an
empty frame `.max()` / `iloc[-1]` have no value, hence `none`. -/
def calculate_support_resistance (data : List Bar) : Option Levels :=
  match ((data.drop (data.length - 60)).map Bar.High).max?,
      ((data.drop (data.length - 60)).map Bar.Low).min?,
      (data.map Bar.Close).getLast? with
  | some high, some low, some close =>
    let pivot := (high + low + close) / 3
    some { resistance_1 := 2 * pivot - low
           resistance_2 := pivot + (high - low)
           resistance_3 := high + 2 * (pivot - low)
           support_1 := 2 * pivot - high
           support_2 := pivot - (high - low)
           support_3 := low - 2 * (high - pivot)
           pivot := pivot }
  | _, _, _ => none

/-- The pivot levels written with the three window statistics spelled
out; shared by the claims about long and short inputs. -/
def pivotLevels (high low close : ℚ) : Levels :=
  { resistance_1 := 2 * ((high + low + close) / 3) - low
    resistance_2 := (high + low + close) / 3 + (high - low)
    resistance_3 := high + 2 * ((high + low + close) / 3 - low)
    support_1 := 2 * ((high + low + close) / 3) - high
    support_2 := (high + low + close) / 3 - (high - low)
    support_3 := low - 2 * (high - (high + low + close) / 3)
    pivot := (high + low + close) / 3 }

theorem support_resistance_aux (data : List Bar) (high low close : ℚ)
    (hh : ((data.drop (data.length - 60)).map Bar.High).max? = some high)
    (hl : ((data.drop (data.length - 60)).map Bar.Low).min? = some low)
    (hc : (data.map Bar.Close).getLast? = some close) :
    calculate_support_resistance data = some (pivotLevels high low close) := by
  unfold calculate_support_resistance
  rw [hh, hl, hc]
  rfl

/-- Claim C6: with at least 60 bars the trailing window really has 60
bars, and the levels are the pivot-point formulas over that window's
extreme High / Low and the latest Close; at high = 113, low = 99,
close = 107 the witness checks pivot, r1 and s1 against 106.333,
113.667 and 99.667 within 1e-3. -/
theorem support_resistance_spec (data : List Bar) (high low close : ℚ)
    (h60 : 60 ≤ data.length)
    (hh : ((data.drop (data.length - 60)).map Bar.High).max? = some high)
    (hl : ((data.drop (data.length - 60)).map Bar.Low).min? = some low)
    (hc : (data.map Bar.Close).getLast? = some close) :
    (data.drop (data.length - 60)).length = 60 ∧
    calculate_support_resistance data = some (pivotLevels high low close) := by
  refine ⟨?_, support_resistance_aux data high low close hh hl hc⟩
  rw [List.length_drop]
  omega

/-- The 60-bar example of the spec's pivot scenario: every bar has
High 113 and Low 99, and the last close is 107. -/
def exBarsC6 : List Bar :=
  List.replicate 59 ⟨100, 113, 99, 100, 1000⟩ ++ [⟨100, 113, 99, 107, 1000⟩]

theorem foldl_max_replicate (n : ℕ) (x : ℚ) :
    List.foldl max x (List.replicate n x) = x := by
  induction n with
  | zero => rfl
  | succ m ih => simpa [List.replicate_succ, max_self] using ih

theorem foldl_min_replicate (n : ℕ) (x : ℚ) :
    List.foldl min x (List.replicate n x) = x := by
  induction n with
  | zero => rfl
  | succ m ih => simpa [List.replicate_succ, min_self] using ih

theorem max?_replicate_succ (n : ℕ) (x : ℚ) :
    (List.replicate (n + 1) x).max? = some x := by
  rw [List.replicate_succ]
  show some (List.foldl max x (List.replicate n x)) = some x
  rw [foldl_max_replicate]

theorem min?_replicate_succ (n : ℕ) (x : ℚ) :
    (List.replicate (n + 1) x).min? = some x := by
  rw [List.replicate_succ]
  show some (List.foldl min x (List.replicate n x)) = some x
  rw [foldl_min_replicate]

theorem exBarsC6_high :
    ((exBarsC6.drop (exBarsC6.length - 60)).map Bar.High).max? = some 113 := by
  have : exBarsC6.length - 60 = 0 := by simp [exBarsC6]
  rw [this, List.drop_zero]
  have hmap : exBarsC6.map Bar.High = List.replicate 60 113 := by
    simp [exBarsC6, List.map_replicate, ← List.replicate_succ']
  rw [hmap]
  exact max?_replicate_succ 59 113

theorem exBarsC6_low :
    ((exBarsC6.drop (exBarsC6.length - 60)).map Bar.Low).min? = some 99 := by
  have : exBarsC6.length - 60 = 0 := by simp [exBarsC6]
  rw [this, List.drop_zero]
  have hmap : exBarsC6.map Bar.Low = List.replicate 60 99 := by
    simp [exBarsC6, List.map_replicate, ← List.replicate_succ']
  rw [hmap]
  exact min?_replicate_succ 59 99

theorem exBarsC6_close : (exBarsC6.map Bar.Close).getLast? = some 107 := by
  simp [exBarsC6, List.map_replicate]

theorem support_resistance_spec_witness :
    (60 ≤ exBarsC6.length ∧
      ((exBarsC6.drop (exBarsC6.length - 60)).map Bar.High).max? = some 113 ∧
      ((exBarsC6.drop (exBarsC6.length - 60)).map Bar.Low).min? = some 99 ∧
      (exBarsC6.map Bar.Close).getLast? = some 107) ∧
    calculate_support_resistance exBarsC6 = some (pivotLevels 113 99 107) ∧
    |(pivotLevels 113 99 107).pivot - 106333 / 1000| ≤ 1 / 1000 ∧
    |(pivotLevels 113 99 107).resistance_1 - 113667 / 1000| ≤ 1 / 1000 ∧
    |(pivotLevels 113 99 107).support_1 - 99667 / 1000| ≤ 1 / 1000 :=
  ⟨⟨by simp [exBarsC6], exBarsC6_high, exBarsC6_low, exBarsC6_close⟩,
    (support_resistance_spec exBarsC6 113 99 107 (by simp [exBarsC6])
      exBarsC6_high exBarsC6_low exBarsC6_close).2,
    by norm_num [pivotLevels, abs_le], by norm_num [pivotLevels, abs_le],
    by norm_num [pivotLevels, abs_le]⟩

/-- A 2-bar frame: far fewer than 60 bars. -/
def exBarsC8 : List Bar := [⟨10, 12, 9, 11, 100⟩, ⟨11, 13, 10, 12, 100⟩]

/-- Claim C8, counterexample: on a 2-bar series
`_calculate_support_resistance` does not fail at all — it returns
levels (computed from the bars available via `tail(60)`), so the
claimed `InsufficientDataError` behaviour is not what the code does. -/
theorem support_resistance_short_counterexample :
    exBarsC8.length < 60 ∧ (calculate_support_resistance exBarsC8).isSome = true :=
  ⟨by simp [exBarsC8], rfl⟩

/-- Claim C8 as amended: for a non-empty series with fewer than 60 bars
the Level Calculator does not raise; `tail(60)` degrades to all
available bars and the pivot levels are computed from the whole
series' extreme High / Low and last Close. -/
theorem support_resistance_short_spec (data : List Bar) (high low close : ℚ)
    (hlen : data.length < 60)
    (hh : (data.map Bar.High).max? = some high)
    (hl : (data.map Bar.Low).min? = some low)
    (hc : (data.map Bar.Close).getLast? = some close) :
    calculate_support_resistance data = some (pivotLevels high low close) := by
  have h0 : data.length - 60 = 0 := by omega
  refine support_resistance_aux data high low close ?_ ?_ hc
  · rw [h0, List.drop_zero]; exact hh
  · rw [h0, List.drop_zero]; exact hl

theorem support_resistance_short_spec_witness :
    (exBarsC8.length < 60 ∧
      (exBarsC8.map Bar.High).max? = some 13 ∧
      (exBarsC8.map Bar.Low).min? = some 9 ∧
      (exBarsC8.map Bar.Close).getLast? = some 12) ∧
    calculate_support_resistance exBarsC8 = some (pivotLevels 13 9 12) :=
  ⟨⟨by simp [exBarsC8],
    by norm_num [exBarsC8, List.max?, max_def],
    by norm_num [exBarsC8, List.min?, min_def],
    by simp [exBarsC8]⟩,
    support_resistance_short_spec exBarsC8 13 9 12 (by simp [exBarsC8])
      (by norm_num [exBarsC8, List.max?, max_def])
      (by norm_num [exBarsC8, List.min?, min_def])
      (by simp [exBarsC8])⟩

/-- The volume regime label of `_analyze_volume`. -/
inductive VolumeTrend where
  | high : VolumeTrend
  | normal : VolumeTrend
  | low : VolumeTrend
deriving DecidableEq, Repr

/-- The record returned by `_analyze_volume`. -/
structure VolumeAnalysis where
  current_volume : ℚ
  avg_volume_20d : ℚ
  volume_ratio : ℚ
  volume_trend : VolumeTrend
deriving DecidableEq, Repr

/-- `recent = data.tail(20); avg_volume = recent['Volume'].mean()`. -/
def avgVolume20 (data : List Bar) : ℚ :=
  ((data.drop (data.length - 20)).map Bar.Volume).sum /
    ((data.drop (data.length - 20)).length : ℚ)

/-- `FullStockAnalyzer._analyze_volume` (full_analysis.py lines 260-272):
`volume_ratio = current_volume / avg_volume if avg_volume > 0 else 1`;
`volume_trend = 'High' if ratio > 1.5 else 'Normal' if ratio > 0.7 else
'Low'`.  An empty frame makes `iloc[-1]` fail, hence `none`. -/
def analyze_volume (data : List Bar) : Option VolumeAnalysis :=
  match (data.map Bar.Volume).getLast? with
  | none => none
  | some current =>
    let avg := avgVolume20 data
    let ratio := if 0 < avg then current / avg else 1
    some { current_volume := current
           avg_volume_20d := avg
           volume_ratio := ratio
           volume_trend :=
             if 3 / 2 < ratio then .high
             else if 7 / 10 < ratio then .normal
             else .low }

/-- Claim C9 as amended: when the 20-bar average volume is positive, the
ratio is the last volume over that average, and the label is High for
ratio > 1.5, Normal for 0.7 < ratio ≤ 1.5 (the 0.7 boundary itself is
excluded, falling to Low), and Low for ratio ≤ 0.7. -/
theorem volume_classification_spec (data : List Bar) (current : ℚ)
    (hcur : (data.map Bar.Volume).getLast? = some current)
    (havg : 0 < avgVolume20 data) :
    (analyze_volume data).map VolumeAnalysis.volume_ratio =
      some (current / avgVolume20 data) ∧
    (3 / 2 < current / avgVolume20 data →
      (analyze_volume data).map VolumeAnalysis.volume_trend = some .high) ∧
    (7 / 10 < current / avgVolume20 data → current / avgVolume20 data ≤ 3 / 2 →
      (analyze_volume data).map VolumeAnalysis.volume_trend = some .normal) ∧
    (current / avgVolume20 data ≤ 7 / 10 →
      (analyze_volume data).map VolumeAnalysis.volume_trend = some .low) := by
  unfold analyze_volume
  rw [hcur]
  simp only [Option.map_some, if_pos havg]
  refine ⟨rfl, ?_, ?_, ?_⟩
  · intro h
    simp [if_pos h]
  · intro h1 h2
    rw [if_neg (not_lt.mpr h2), if_pos h1]
    rfl
  · intro h
    rw [if_neg (not_lt.mpr (h.trans (by norm_num))), if_neg (not_lt.mpr h)]
    rfl

/-- A 2-bar frame whose last volume is exactly 0.7 of the average
volume: volumes 13 and 7 average to 10. -/
def exBarsC9 : List Bar := [⟨1, 1, 1, 1, 13⟩, ⟨1, 1, 1, 1, 7⟩]

/-- Claim C9, counterexample: at `volume_ratio` exactly 0.7 the code
labels the regime `Low` (`'Normal' if volume_ratio > 0.7` is a strict
comparison), not `Normal` as the claim's inclusive 0.7 bound states. -/
theorem volume_boundary_counterexample :
    analyze_volume exBarsC9 =
      some { current_volume := 7, avg_volume_20d := 10,
             volume_ratio := 7 / 10, volume_trend := .low } ∧
    VolumeTrend.low ≠ VolumeTrend.normal := by
  constructor
  · have hcur : (exBarsC9.map Bar.Volume).getLast? = some 7 := by simp [exBarsC9]
    have havg : avgVolume20 exBarsC9 = 10 := by
      norm_num [avgVolume20, exBarsC9]
    unfold analyze_volume
    rw [hcur]
    simp only [havg]
    norm_num
  · decide

theorem volume_classification_spec_witness :
    ((exBarsC9.map Bar.Volume).getLast? = some 7 ∧ 0 < avgVolume20 exBarsC9 ∧
      (7 : ℚ) / avgVolume20 exBarsC9 ≤ 7 / 10) ∧
    (analyze_volume exBarsC9).map VolumeAnalysis.volume_trend = some .low := by
  have havg : avgVolume20 exBarsC9 = 10 := by norm_num [avgVolume20, exBarsC9]
  have h1 : (exBarsC9.map Bar.Volume).getLast? = some 7 := by simp [exBarsC9]
  have h2 : (0 : ℚ) < avgVolume20 exBarsC9 := by rw [havg]; norm_num
  have h3 : (7 : ℚ) / avgVolume20 exBarsC9 ≤ 7 / 10 := by rw [havg]
  exact ⟨⟨h1, h2, h3⟩, (volume_classification_spec exBarsC9 7 h1 h2).2.2.2 h3⟩

/-- Claim C10: when the 20-bar average volume is not positive, the code
defines `volume_ratio = 1` (no division, no NaN, no exception), which
classifies the regime as Normal; the returned ratio is always a plain
rational, hence finite. -/
theorem volume_zero_avg_spec (data : List Bar) (current : ℚ)
    (hcur : (data.map Bar.Volume).getLast? = some current)
    (havg : ¬ 0 < avgVolume20 data) :
    (analyze_volume data).map VolumeAnalysis.volume_ratio = some 1 ∧
    (analyze_volume data).map VolumeAnalysis.volume_trend = some .normal := by
  unfold analyze_volume
  rw [hcur]
  simp only [Option.map_some, if_neg havg]
  norm_num

/-- A 2-bar frame with zero volume throughout. -/
def exBarsC10 : List Bar := [⟨1, 1, 1, 1, 0⟩, ⟨1, 1, 1, 1, 0⟩]

theorem volume_zero_avg_spec_witness :
    ((exBarsC10.map Bar.Volume).getLast? = some 0 ∧ ¬ 0 < avgVolume20 exBarsC10) ∧
    (analyze_volume exBarsC10).map VolumeAnalysis.volume_ratio = some 1 ∧
    (analyze_volume exBarsC10).map VolumeAnalysis.volume_trend = some .normal := by
  have h1 : (exBarsC10.map Bar.Volume).getLast? = some 0 := by simp [exBarsC10]
  have h2 : ¬ (0 : ℚ) < avgVolume20 exBarsC10 := by
    norm_num [avgVolume20, exBarsC10]
  exact ⟨⟨h1, h2⟩, volume_zero_avg_spec exBarsC10 0 h1 h2⟩

end ZMTech
